import Mathlib

/-!
# Inbox rendering across the training chapters

A shallow embedding of the `Inbox` components of chapters `02-props`,
`05-hooks` and `06-final`, and of the `05-hooks` `Preview` component.

A component is a function from its inputs (the imported fixture, or the
values read from context) to the React element it returns.  Elements are
trees; an element of an imported component (`Denied`, `Empty`, `Preview`,
`Undo`) is a leaf carrying its key and props, since the component is not
expanded by `Inbox` itself.

Record identifiers are strings: React compares keys after converting them
to strings, and the template literal that builds the Undo key converts the
identifier the same way, so a numeric identifier is represented by its
decimal rendering.
-/

namespace ReactTraining

/-! ## Data model -/

/-- An email record: the four fields every variant reads. -/
structure Email where
  id : String
  name : String
  title : String
  body : String
deriving DecidableEq, Repr

/-- An event handler, recorded as the call it makes when invoked.
`removeEmail id` stands for the closure `() => removeEmail(id)` over the
`removeEmail` taken from the context value. -/
inductive Handler where
  | removeEmail (id : String)
deriving DecidableEq, Repr

/-- The value of a JSX attribute of a host element. -/
inductive AttrValue where
  | str (s : String)
  | asset (path : String)
  | handler (h : Handler)
deriving DecidableEq, Repr

/-- React elements as the components under study build them.

* `text s` is a string child such as `{name}`;
* `host tag attrs children` is a DOM element such as `<ul className="inbox">`;
* `Denied`, `Empty` are `<Denied />`, `<Empty />`;
* `Preview key props` is `<Preview key={...} {...email} />`;
* `Undo key` is `<Undo key={...} />`;
* `AppConsumer child` is `<AppConsumer>{fn}</AppConsumer>`, with `child`
  the element the render function `fn` returns. -/
inductive Element where
  | text (s : String)
  | host (tag : String) (attrs : List (String × AttrValue)) (children : List Element)
  | Denied
  | Empty
  | Preview (key : String) (props : Email)
  | Undo (key : String)
  | AppConsumer (child : Element)
deriving Repr

/-- What sort of element a node is, forgetting keys, props and children. -/
inductive Kind where
  | text
  | host (tag : String)
  | Denied
  | Empty
  | Preview
  | Undo
  | AppConsumer
deriving DecidableEq, Repr

namespace Element

/-- The sort of an element. -/
def kind : Element → Kind
  | .text _ => .text
  | .host tag _ _ => .host tag
  | .Denied => .Denied
  | .Empty => .Empty
  | .Preview _ _ => .Preview
  | .Undo _ => .Undo
  | .AppConsumer _ => .AppConsumer

/-- The React key of an element, when it was given one. -/
def key? : Element → Option String
  | .Preview key _ => some key
  | .Undo key => some key
  | _ => none

mutual
/-- Number of elements of sort `k` in the tree rooted at an element,
the root included. -/
def count (k : Kind) : Element → Nat
  | .text _ => if Kind.text = k then 1 else 0
  | .host tag _ cs => (if Kind.host tag = k then 1 else 0) + countList k cs
  | .Denied => if Kind.Denied = k then 1 else 0
  | .Empty => if Kind.Empty = k then 1 else 0
  | .Preview _ _ => if Kind.Preview = k then 1 else 0
  | .Undo _ => if Kind.Undo = k then 1 else 0
  | .AppConsumer c => (if Kind.AppConsumer = k then 1 else 0) + count k c
/-- Number of elements of sort `k` in a sequence of trees. -/
def countList (k : Kind) : List Element → Nat
  | [] => 0
  | c :: cs => count k c + countList k cs
end

mutual
/-- The text shown by an element: its string leaves in document order. -/
def texts : Element → List String
  | .text s => [s]
  | .host _ _ cs => textsList cs
  | .AppConsumer c => texts c
  | _ => []
/-- The text shown by a sequence of elements. -/
def textsList : List Element → List String
  | [] => []
  | c :: cs => texts c ++ textsList cs
end

/-- The handlers among a host element's attributes registered as `onClick`. -/
def onClickOf (attrs : List (String × AttrValue)) : List Handler :=
  attrs.filterMap fun a =>
    match a with
    | ("onClick", .handler h) => some h
    | _ => none

mutual
/-- Every `onClick` handler in the tree, in document order. -/
def onClicks : Element → List Handler
  | .host _ attrs cs => onClickOf attrs ++ onClicksList cs
  | .AppConsumer c => onClicks c
  | _ => []
/-- Every `onClick` handler in a sequence of trees. -/
def onClicksList : List Element → List Handler
  | [] => []
  | c :: cs => onClicks c ++ onClicksList cs
end

end Element

/-! ## `Array.prototype.splice` -/

/-- The start position `splice` uses on an array of length `len`: a negative
`start` counts back from the end and stops at `0`, any other `start` stops at
`len`. -/
def spliceStart (len : Nat) (start : Int) : Nat :=
  if start < 0 then (((len : Int) + start).toNat) else min start.toNat len

/-- The array after `xs.splice(start, deleteCount, ...items)`. -/
def splice {α : Type} (xs : List α) (start : Int) (deleteCount : Int) (items : List α) : List α :=
  let actualStart := spliceStart xs.length start
  let actualDeleteCount := min deleteCount.toNat (xs.length - actualStart)
  xs.take actualStart ++ items ++ xs.drop (actualStart + actualDeleteCount)

/-! ## Chapter 02-props -/

namespace Props02

/-- `Inbox` of `02-props/components/inbox.js`; `emails` is the fixture the
module imports. -/
def Inbox (emails : List Email) : Element :=
  if emails.length = 0 then
    .Empty
  else
    .host "ul" [] (emails.map fun e =>
      .host "li" [] [
        .host "h3" [] [.text e.name],
        .host "div" [] [
          .host "h3" [] [.text e.title],
          .host "p" [] [.text e.body]]])

end Props02

/-! ## Chapter 05-hooks -/

namespace Hooks05

/-- The state part of the `AppContext` value; its `removeEmail` operation is
`removeEmail` below. -/
structure AppContext where
  isAuthenticated : Bool
  emails : List Email
deriving DecidableEq, Repr

/-- Modelled from the spec: `removeEmail`, the operation the context owner
exposes (its module, `05-hooks/context`, is not among the sources); it
removes the record with the matching identifier from the shared emails. -/
def removeEmail (id : String) (ctx : AppContext) : AppContext :=
  { ctx with emails := ctx.emails.filter fun e => e.id != id }

/-- Invoking a handler against the shared context state. -/
def invoke : Handler → AppContext → AppContext
  | .removeEmail id, ctx => removeEmail id ctx

/-- The module path of the imported trash icon. -/
def trash : String := "../../../assets/trash.png"

/-- `Preview` of `05-hooks/components/preview.js`. -/
def Preview (props : Email) : Element :=
  .AppConsumer
    (.host "div" [("className", .str "preview")] [
      .host "h3" [("className", .str "preview-name")] [.text props.name],
      .host "div" [("className", .str "preview-content")] [
        .host "h3" [("className", .str "preview-title")] [.text props.title],
        .host "p" [("className", .str "preview-body")] [.text props.body]],
      .host "img" [("className", .str "preview-delete"), ("src", .asset trash),
        ("alt", .str "remove"), ("onClick", .handler (.removeEmail props.id))] []])

/-- `Inbox.render` of `05-hooks/components/inbox.js`; `ctx` is `this.context`. -/
def Inbox (ctx : AppContext) : Element :=
  if !ctx.isAuthenticated then
    .Denied
  else if ctx.emails.length = 0 then
    .Empty
  else
    .host "ul" [("className", .str "inbox")] (ctx.emails.map fun email => .Preview email.id email)

end Hooks05

/-! ## Chapter 06-final -/

namespace Final06

/-- The value `useAuth()` returns. -/
structure AuthContext where
  isAuthenticated : Bool
deriving DecidableEq, Repr

/-- The removal memo: the last removed record and the position it had. -/
structure RemovedEmailInfo where
  email : Email
  index : Int
deriving DecidableEq, Repr

/-- The part of the value `useEmail()` returns that `Inbox` reads;
`removedEmailInfo` is `none` for `null`. -/
structure EmailContext where
  emails : List Email
  removedEmailInfo : Option RemovedEmailInfo
deriving DecidableEq, Repr

/-- `Inbox` of `06-final/components/inbox.js`. -/
def Inbox (auth : AuthContext) (ec : EmailContext) : Element :=
  if !auth.isAuthenticated then
    .Denied
  else if ec.emails.length = 0 then
    .Empty
  else
    let inboxElements : List Element := ec.emails.map fun email => .Preview email.id email
    let inboxElements :=
      match ec.removedEmailInfo with
      | some removedEmailInfo =>
        splice inboxElements removedEmailInfo.index 0 [.Undo ("undo-" ++ removedEmailInfo.email.id)]
      | none => inboxElements
    .host "ul" [("className", .str "inbox")] inboxElements

end Final06

/-! ## The three variants side by side -/

/-- The chapters that define an `Inbox`. -/
inductive Variant where
  | props02
  | hooks05
  | final06
deriving DecidableEq, Repr

/-- Everything any variant of `Inbox` may read from its surroundings. -/
structure Ambient where
  isAuthenticated : Bool
  emails : List Email
  removedEmailInfo : Option Final06.RemovedEmailInfo
deriving DecidableEq, Repr

/-- Each variant's `Inbox` on the part of the surroundings it reads:
`02-props` reads the emails only. -/
def renderInbox : Variant → Ambient → Element
  | .props02, a => Props02.Inbox a.emails
  | .hooks05, a => Hooks05.Inbox ⟨a.isAuthenticated, a.emails⟩
  | .final06, a => Final06.Inbox ⟨a.isAuthenticated⟩ ⟨a.emails, a.removedEmailInfo⟩

/-- Whether an element is the populated list: a `ul` with at least one child. -/
def isPopulatedList : Element → Bool
  | .host tag _ children => tag == "ul" && !children.isEmpty
  | _ => false

/-- The children of a list element; `none` when the element is not a `ul`. -/
def listChildren? : Element → Option (List Element)
  | .host "ul" _ cs => some cs
  | _ => none

/-! ## Lemmas on `splice` with a single inserted element -/

theorem spliceStart_le (len : Nat) (start : Int) : spliceStart len start ≤ len := by
  unfold spliceStart
  split
  · omega
  · exact Nat.min_le_right _ _

theorem spliceStart_natCast (len i : Nat) (h : i ≤ len) : spliceStart len (i : Int) = i := by
  unfold spliceStart
  have : ¬ ((i : Int) < 0) := by omega
  simp [this, h]

theorem spliceStart_of_gt (len : Nat) (start : Int) (h : (len : Int) < start) :
    spliceStart len start = len := by
  unfold spliceStart
  have : ¬ (start < 0) := by omega
  simp only [this, if_false]
  apply Nat.min_eq_right
  omega

theorem spliceStart_of_neg (len : Nat) (start : Int) (h : start < 0) :
    spliceStart len start = ((len : Int) + start).toNat := by
  unfold spliceStart
  simp [h]

theorem splice_insert {α : Type} (xs : List α) (start : Int) (x : α) :
    splice xs start 0 [x]
      = xs.take (spliceStart xs.length start) ++ x :: xs.drop (spliceStart xs.length start) := by
  simp [splice]

theorem length_take_cons_drop {α : Type} (xs : List α) (p : Nat) (x : α) :
    (xs.take p ++ x :: xs.drop p).length = xs.length + 1 := by
  have := List.take_append_drop p xs
  have h : (xs.take p ++ xs.drop p).length = xs.length := by rw [this]
  simp only [List.length_append, List.length_cons] at h ⊢
  omega

theorem getElem?_take_cons_drop {α : Type} (xs : List α) (p : Nat) (x : α) (h : p ≤ xs.length) :
    (xs.take p ++ x :: xs.drop p)[p]? = some x := by
  have hl : (xs.take p).length = p := by simp [h]
  rw [List.getElem?_append_right (by omega)]
  simp [hl]

theorem eraseIdx_take_cons_drop {α : Type} (xs : List α) (p : Nat) (x : α) (h : p ≤ xs.length) :
    (xs.take p ++ x :: xs.drop p).eraseIdx p = xs := by
  have hl : (xs.take p).length = p := by simp [h]
  rw [List.eraseIdx_append_of_length_le (by omega)]
  simp [hl]


/-! ## Unfolding the `06-final` Inbox on its populated branch -/

theorem final06_inbox_eq_of_memo (auth : Final06.AuthContext) (ec : Final06.EmailContext)
    (info : Final06.RemovedEmailInfo)
    (hauth : auth.isAuthenticated = true) (hne : ec.emails ≠ [])
    (hmemo : ec.removedEmailInfo = some info) :
    Final06.Inbox auth ec
      = .host "ul" [("className", .str "inbox")]
          ((ec.emails.map fun email => Element.Preview email.id email).take
              (spliceStart ec.emails.length info.index)
            ++ Element.Undo ("undo-" ++ info.email.id)
              :: (ec.emails.map fun email => Element.Preview email.id email).drop
                  (spliceStart ec.emails.length info.index)) := by
  have hlen : ¬ ec.emails.length = 0 := by
    intro h; exact hne (List.length_eq_zero.mp h)
  simp only [Final06.Inbox, hauth, hlen, hmemo, splice_insert, List.length_map]
  simp

theorem final06_inbox_eq_of_no_memo (auth : Final06.AuthContext) (ec : Final06.EmailContext)
    (hauth : auth.isAuthenticated = true) (hne : ec.emails ≠ [])
    (hmemo : ec.removedEmailInfo = none) :
    Final06.Inbox auth ec
      = .host "ul" [("className", .str "inbox")]
          (ec.emails.map fun email => Element.Preview email.id email) := by
  have hlen : ¬ ec.emails.length = 0 := by
    intro h; exact hne (List.length_eq_zero.mp h)
  simp only [Final06.Inbox, hauth, hlen, hmemo]
  simp

theorem final06_inbox_eq_of_empty (auth : Final06.AuthContext) (ec : Final06.EmailContext)
    (hauth : auth.isAuthenticated = true) (hemp : ec.emails = []) :
    Final06.Inbox auth ec = .Empty := by
  simp [Final06.Inbox, hauth, hemp]

theorem final06_inbox_eq_of_unauthenticated (auth : Final06.AuthContext)
    (ec : Final06.EmailContext) (hauth : auth.isAuthenticated = false) :
    Final06.Inbox auth ec = .Denied := by
  simp [Final06.Inbox, hauth]

theorem hooks05_inbox_eq_of_unauthenticated (ctx : Hooks05.AppContext)
    (hauth : ctx.isAuthenticated = false) : Hooks05.Inbox ctx = .Denied := by
  simp [Hooks05.Inbox, hauth]

theorem hooks05_inbox_eq_of_empty (ctx : Hooks05.AppContext)
    (hauth : ctx.isAuthenticated = true) (hemp : ctx.emails = []) :
    Hooks05.Inbox ctx = .Empty := by
  simp [Hooks05.Inbox, hauth, hemp]

theorem hooks05_inbox_eq_of_populated (ctx : Hooks05.AppContext)
    (hauth : ctx.isAuthenticated = true) (hne : ctx.emails ≠ []) :
    Hooks05.Inbox ctx
      = .host "ul" [("className", .str "inbox")]
          (ctx.emails.map fun email => Element.Preview email.id email) := by
  have hlen : ¬ ctx.emails.length = 0 := by
    intro h; exact hne (List.length_eq_zero.mp h)
  simp only [Hooks05.Inbox, hauth, hlen]
  simp

theorem props02_inbox_eq_of_populated (emails : List Email) (hne : emails ≠ []) :
    Props02.Inbox emails
      = .host "ul" [] (emails.map fun e =>
          .host "li" [] [
            .host "h3" [] [.text e.name],
            .host "div" [] [
              .host "h3" [] [.text e.title],
              .host "p" [] [.text e.body]]]) := by
  have hlen : ¬ emails.length = 0 := by
    intro h; exact hne (List.length_eq_zero.mp h)
  simp only [Props02.Inbox, hlen]
  simp

theorem props02_countList_li (emails : List Email) :
    Element.countList (.host "li") (emails.map fun e =>
          Element.host "li" [] [
            .host "h3" [] [.text e.name],
            .host "div" [] [
              .host "h3" [] [.text e.title],
              .host "p" [] [.text e.body]]]) = emails.length := by
  induction emails with
  | nil => rfl
  | cons e es ih =>
    simp only [List.map_cons, Element.countList, List.length_cons, ih]
    simp [Element.count, Element.countList]
    omega


/-! ## Chapter 06-final: the Undo element in the rendered list -/

/-- C1: in the split-context Inbox, for an authenticated state with a
non-empty collection of length `n` and a removal memo whose index `i`
satisfies `0 ≤ i ≤ n`, the rendered list has `n + 1` elements, the Undo
element (keyed `undo-` followed by the removed id) is at position `i`, and
deleting that element leaves exactly the Preview elements of the emails in
collection order. -/
theorem final06_inbox_undo_at_memo_index (auth : Final06.AuthContext)
    (ec : Final06.EmailContext) (info : Final06.RemovedEmailInfo) (i : Nat)
    (hauth : auth.isAuthenticated = true) (hne : ec.emails ≠ [])
    (hmemo : ec.removedEmailInfo = some info)
    (hidx : info.index = (i : Int)) (hi : i ≤ ec.emails.length) :
    ∃ children : List Element,
      Final06.Inbox auth ec = .host "ul" [("className", .str "inbox")] children
      ∧ children.length = ec.emails.length + 1
      ∧ children[i]? = some (.Undo ("undo-" ++ info.email.id))
      ∧ children.eraseIdx i = ec.emails.map fun email => Element.Preview email.id email := by
  refine ⟨_, final06_inbox_eq_of_memo auth ec info hauth hne hmemo, ?_, ?_, ?_⟩
  · rw [length_take_cons_drop, List.length_map]
  · rw [hidx, spliceStart_natCast _ _ hi]
    exact getElem?_take_cons_drop _ _ _ (by simpa using hi)
  · rw [hidx, spliceStart_natCast _ _ hi]
    exact eraseIdx_take_cons_drop _ _ _ (by simpa using hi)

/-- Witness for C1: three emails and a memo at index 1 give a list of
length 4 with the Undo element at position 1. -/
theorem final06_inbox_undo_at_memo_index_witness :
    ∃ children : List Element,
      Final06.Inbox ⟨true⟩
          ⟨[⟨"a", "Ann", "Hi", "x"⟩, ⟨"b", "Bob", "Yo", "y"⟩, ⟨"c", "Cy", "Re", "z"⟩],
            some ⟨⟨"d", "Dee", "Fw", "w"⟩, 1⟩⟩
        = .host "ul" [("className", .str "inbox")] children
      ∧ children.length = 3 + 1
      ∧ children[1]? = some (.Undo ("undo-" ++ "d"))
      ∧ children.eraseIdx 1
          = [.Preview "a" ⟨"a", "Ann", "Hi", "x"⟩, .Preview "b" ⟨"b", "Bob", "Yo", "y"⟩,
              .Preview "c" ⟨"c", "Cy", "Re", "z"⟩] :=
  final06_inbox_undo_at_memo_index ⟨true⟩
    ⟨[⟨"a", "Ann", "Hi", "x"⟩, ⟨"b", "Bob", "Yo", "y"⟩, ⟨"c", "Cy", "Re", "z"⟩],
      some ⟨⟨"d", "Dee", "Fw", "w"⟩, 1⟩⟩
    ⟨⟨"d", "Dee", "Fw", "w"⟩, 1⟩ 1 rfl (by simp) rfl rfl (by decide)

/-- C2, as stated, fails: with an authenticated user, an empty collection and
a live removal memo, the output is the Empty placeholder, not a list of
length `0 + 1`. -/
theorem final06_inbox_empty_collection_hides_undo :
    Final06.Inbox ⟨true⟩ ⟨[], some ⟨⟨"d", "Dee", "Fw", "w"⟩, 0⟩⟩ = .Empty
    ∧ ¬ ∃ children : List Element,
        listChildren? (Final06.Inbox ⟨true⟩ ⟨[], some ⟨⟨"d", "Dee", "Fw", "w"⟩, 0⟩⟩)
          = some children
        ∧ children.length = ([] : List Email).length + 1 := by
  refine ⟨rfl, ?_⟩
  rintro ⟨children, h, -⟩
  have h' : (none : Option (List Element)) = some children := h
  cases h'

/-- C2, amended: in the split-context Inbox, for an authenticated state with
a non-empty collection, the output is a list whose length is the email count
plus one when a removal memo is present, and exactly the email count when
the memo is absent. -/
theorem final06_inbox_length (auth : Final06.AuthContext) (ec : Final06.EmailContext)
    (hauth : auth.isAuthenticated = true) (hne : ec.emails ≠ []) :
    ∃ children : List Element,
      Final06.Inbox auth ec = .host "ul" [("className", .str "inbox")] children
      ∧ children.length
          = ec.emails.length + (if ec.removedEmailInfo.isSome = true then 1 else 0) := by
  cases hmemo : ec.removedEmailInfo with
  | none =>
    refine ⟨_, final06_inbox_eq_of_no_memo auth ec hauth hne hmemo, ?_⟩
    simp
  | some info =>
    refine ⟨_, final06_inbox_eq_of_memo auth ec info hauth hne hmemo, ?_⟩
    rw [length_take_cons_drop, List.length_map]
    simp

/-- Witness for the amended C2: two emails and a live memo give a list of
three elements. -/
theorem final06_inbox_length_witness :
    ∃ children : List Element,
      Final06.Inbox ⟨true⟩
          ⟨[⟨"a", "Ann", "Hi", "x"⟩, ⟨"b", "Bob", "Yo", "y"⟩],
            some ⟨⟨"d", "Dee", "Fw", "w"⟩, 2⟩⟩
        = .host "ul" [("className", .str "inbox")] children
      ∧ children.length = 2 + 1 :=
  final06_inbox_length ⟨true⟩
    ⟨[⟨"a", "Ann", "Hi", "x"⟩, ⟨"b", "Bob", "Yo", "y"⟩],
      some ⟨⟨"d", "Dee", "Fw", "w"⟩, 2⟩⟩ rfl (by simp)

/-- C10, as stated, fails for a negative index above `-n`: with three emails
and a memo at index `-1` the Undo element is counted back from the end and
lands at position 2, between the second and third Preview; clamping `-1`
into `0..3` gives position 0, and the Undo element is not there. -/
theorem final06_inbox_undo_negative_index_not_clamped :
    listChildren? (Final06.Inbox ⟨true⟩
        ⟨[⟨"a", "Ann", "Hi", "x"⟩, ⟨"b", "Bob", "Yo", "y"⟩, ⟨"c", "Cy", "Re", "z"⟩],
          some ⟨⟨"d", "Dee", "Fw", "w"⟩, -1⟩⟩)
      = some [.Preview "a" ⟨"a", "Ann", "Hi", "x"⟩, .Preview "b" ⟨"b", "Bob", "Yo", "y"⟩,
          .Undo "undo-d", .Preview "c" ⟨"c", "Cy", "Re", "z"⟩]
    ∧ (max (0 : Int) (min (-1) 3)).toNat = 0
    ∧ ¬ ∃ children : List Element,
        listChildren? (Final06.Inbox ⟨true⟩
            ⟨[⟨"a", "Ann", "Hi", "x"⟩, ⟨"b", "Bob", "Yo", "y"⟩, ⟨"c", "Cy", "Re", "z"⟩],
              some ⟨⟨"d", "Dee", "Fw", "w"⟩, -1⟩⟩)
          = some children
        ∧ children[(max (0 : Int) (min (-1) 3)).toNat]? = some (.Undo "undo-d") := by
  refine ⟨rfl, by decide, ?_⟩
  rintro ⟨children, h, hu⟩
  have h' : some [Element.Preview "a" ⟨"a", "Ann", "Hi", "x"⟩,
      .Preview "b" ⟨"b", "Bob", "Yo", "y"⟩, .Undo "undo-d",
      .Preview "c" ⟨"c", "Cy", "Re", "z"⟩] = some children := h
  have h0 : (max (0 : Int) (min (-1) 3)).toNat = 0 := by decide
  rw [h0, ← Option.some.inj h'] at hu
  simp at hu

/-- C10, amended: in the split-context Inbox, for an authenticated state with
a non-empty collection of length `n` and a removal memo whose integer index
lies outside `0..n`, rendering still yields a list of `n + 1` elements, with
the Previews in collection order and the Undo element at a position `p`
within `0..n`: `p = n` when the index exceeds `n`, and when the index is
negative `p` is counted back from the end, `n + index`, stopping at `0` when
that is negative. -/
theorem final06_inbox_undo_out_of_range (auth : Final06.AuthContext)
    (ec : Final06.EmailContext) (info : Final06.RemovedEmailInfo)
    (hauth : auth.isAuthenticated = true) (hne : ec.emails ≠ [])
    (hmemo : ec.removedEmailInfo = some info)
    (hout : info.index < 0 ∨ (ec.emails.length : Int) < info.index) :
    ∃ (children : List Element) (p : Nat),
      Final06.Inbox auth ec = .host "ul" [("className", .str "inbox")] children
      ∧ children.length = ec.emails.length + 1
      ∧ p ≤ ec.emails.length
      ∧ children[p]? = some (.Undo ("undo-" ++ info.email.id))
      ∧ children.eraseIdx p = (ec.emails.map fun email => Element.Preview email.id email)
      ∧ p = (if info.index < 0 then ((ec.emails.length : Int) + info.index).toNat
              else ec.emails.length) := by
  have hp := spliceStart_le ec.emails.length info.index
  refine ⟨_, spliceStart ec.emails.length info.index,
    final06_inbox_eq_of_memo auth ec info hauth hne hmemo, ?_, hp, ?_, ?_, ?_⟩
  · rw [length_take_cons_drop, List.length_map]
  · exact getElem?_take_cons_drop _ _ _ (by simpa using hp)
  · exact eraseIdx_take_cons_drop _ _ _ (by simpa using hp)
  · rcases hout with hneg | hgt
    · rw [if_pos hneg]; exact spliceStart_of_neg _ _ hneg
    · have : ¬ info.index < 0 := by omega
      rw [if_neg this]; exact spliceStart_of_gt _ _ hgt

/-- Witness for the amended C10: three emails and a memo at index `-1` put
the Undo element at position 2, one before the end. -/
theorem final06_inbox_undo_out_of_range_witness :
    ∃ (children : List Element) (p : Nat),
      Final06.Inbox ⟨true⟩
          ⟨[⟨"a", "Ann", "Hi", "x"⟩, ⟨"b", "Bob", "Yo", "y"⟩, ⟨"c", "Cy", "Re", "z"⟩],
            some ⟨⟨"d", "Dee", "Fw", "w"⟩, -1⟩⟩
        = .host "ul" [("className", .str "inbox")] children
      ∧ children.length = 3 + 1
      ∧ p ≤ 3
      ∧ children[p]? = some (.Undo ("undo-" ++ "d"))
      ∧ children.eraseIdx p
          = [.Preview "a" ⟨"a", "Ann", "Hi", "x"⟩, .Preview "b" ⟨"b", "Bob", "Yo", "y"⟩,
              .Preview "c" ⟨"c", "Cy", "Re", "z"⟩]
      ∧ p = 2 :=
  final06_inbox_undo_out_of_range ⟨true⟩
    ⟨[⟨"a", "Ann", "Hi", "x"⟩, ⟨"b", "Bob", "Yo", "y"⟩, ⟨"c", "Cy", "Re", "z"⟩],
      some ⟨⟨"d", "Dee", "Fw", "w"⟩, -1⟩⟩
    ⟨⟨"d", "Dee", "Fw", "w"⟩, -1⟩ rfl (by simp) rfl (Or.inl (by decide))

/-! ## Lemmas on counting elements and on removal by identifier -/

theorem countList_preview_map (k : Kind) (es : List Email) :
    Element.countList k (es.map fun email => Element.Preview email.id email)
      = if Kind.Preview = k then es.length else 0 := by
  induction es with
  | nil => simp [Element.countList]
  | cons e es ih =>
    simp only [List.map_cons, Element.countList, Element.count, ih, List.length_cons]
    split <;> omega

theorem filter_id_ne_of_not_mem (id : String) (es : List Email)
    (h : id ∉ es.map Email.id) : es.filter (fun e => e.id != id) = es := by
  rw [List.filter_eq_self]
  intro e he
  have : e.id ≠ id := fun heq => h (heq ▸ List.mem_map_of_mem Email.id he)
  simpa using this

theorem filter_id_ne_eq_eraseIdx (es : List Email) (k : Nat) (hk : k < es.length)
    (huniq : (es.map Email.id).Nodup) :
    es.filter (fun e => e.id != es[k].id) = es.eraseIdx k := by
  induction es generalizing k with
  | nil => simp at hk
  | cons e t ih =>
    rw [List.map_cons, List.nodup_cons] at huniq
    cases k with
    | zero =>
      simp only [List.getElem_cons_zero, List.eraseIdx_cons_zero]
      rw [List.filter_cons]
      simp only [bne_self_eq_false, Bool.false_eq_true, if_false]
      exact filter_id_ne_of_not_mem _ _ huniq.1
    | succ j =>
      have hj : j < t.length := by simpa using hk
      simp only [List.getElem_cons_succ, List.eraseIdx_cons_succ]
      have hne : e.id ≠ t[j].id := by
        intro heq
        apply huniq.1
        rw [heq]
        exact List.mem_map_of_mem Email.id (List.getElem_mem hj)
      rw [List.filter_cons]
      have : (e.id != t[j].id) = true := by simpa using hne
      rw [if_pos this, ih j hj huniq.2]


/-! ## The placeholders and the populated list -/

/-- C3: in both context-based Inbox variants, when `isAuthenticated` is false
the output is the Denied placeholder, whatever the emails collection (and,
in 06-final, whatever the removal memo), and it contains no Preview, Undo or
Empty element. -/
theorem context_inbox_denied (ctx : Hooks05.AppContext)
    (auth : Final06.AuthContext) (ec : Final06.EmailContext)
    (h5 : ctx.isAuthenticated = false) (h6 : auth.isAuthenticated = false) :
    (Hooks05.Inbox ctx = .Denied
      ∧ (Hooks05.Inbox ctx).count .Preview = 0
      ∧ (Hooks05.Inbox ctx).count .Undo = 0
      ∧ (Hooks05.Inbox ctx).count .Empty = 0)
    ∧ (Final06.Inbox auth ec = .Denied
      ∧ (Final06.Inbox auth ec).count .Preview = 0
      ∧ (Final06.Inbox auth ec).count .Undo = 0
      ∧ (Final06.Inbox auth ec).count .Empty = 0) := by
  rw [hooks05_inbox_eq_of_unauthenticated ctx h5, final06_inbox_eq_of_unauthenticated auth ec h6]
  simp [Element.count]

/-- Witness for C3: unauthenticated contexts holding one email and, in
06-final, a live memo. -/
theorem context_inbox_denied_witness :
    (Hooks05.Inbox ⟨false, [⟨"a", "Ann", "Hi", "x"⟩]⟩ = .Denied
      ∧ (Hooks05.Inbox ⟨false, [⟨"a", "Ann", "Hi", "x"⟩]⟩).count .Preview = 0
      ∧ (Hooks05.Inbox ⟨false, [⟨"a", "Ann", "Hi", "x"⟩]⟩).count .Undo = 0
      ∧ (Hooks05.Inbox ⟨false, [⟨"a", "Ann", "Hi", "x"⟩]⟩).count .Empty = 0)
    ∧ (Final06.Inbox ⟨false⟩ ⟨[⟨"a", "Ann", "Hi", "x"⟩], some ⟨⟨"d", "Dee", "Fw", "w"⟩, 0⟩⟩
          = .Denied
      ∧ (Final06.Inbox ⟨false⟩
          ⟨[⟨"a", "Ann", "Hi", "x"⟩], some ⟨⟨"d", "Dee", "Fw", "w"⟩, 0⟩⟩).count .Preview = 0
      ∧ (Final06.Inbox ⟨false⟩
          ⟨[⟨"a", "Ann", "Hi", "x"⟩], some ⟨⟨"d", "Dee", "Fw", "w"⟩, 0⟩⟩).count .Undo = 0
      ∧ (Final06.Inbox ⟨false⟩
          ⟨[⟨"a", "Ann", "Hi", "x"⟩], some ⟨⟨"d", "Dee", "Fw", "w"⟩, 0⟩⟩).count .Empty = 0) :=
  context_inbox_denied ⟨false, [⟨"a", "Ann", "Hi", "x"⟩]⟩ ⟨false⟩
    ⟨[⟨"a", "Ann", "Hi", "x"⟩], some ⟨⟨"d", "Dee", "Fw", "w"⟩, 0⟩⟩ rfl rfl

/-- C4: in the ambient-context Inbox, with `isAuthenticated` true, a
non-empty collection of length `N` renders as a list of exactly `N` Preview
children in collection order, the `k`-th keyed by the `k`-th record's id and
receiving that record's id, name, title and body; an empty collection
renders as the Empty placeholder. -/
theorem hooks05_inbox_authenticated (ctx : Hooks05.AppContext)
    (hauth : ctx.isAuthenticated = true) :
    (ctx.emails ≠ [] →
      ∃ children : List Element,
        Hooks05.Inbox ctx = .host "ul" [("className", .str "inbox")] children
        ∧ children.length = ctx.emails.length
        ∧ (Hooks05.Inbox ctx).count .Preview = ctx.emails.length
        ∧ ∀ (k : Nat) (hk : k < ctx.emails.length),
            children[k]? = some (.Preview (ctx.emails[k]).id
              ⟨(ctx.emails[k]).id, (ctx.emails[k]).name, (ctx.emails[k]).title,
                (ctx.emails[k]).body⟩))
    ∧ (ctx.emails = [] → Hooks05.Inbox ctx = .Empty) := by
  refine ⟨fun hne => ?_, hooks05_inbox_eq_of_empty ctx hauth⟩
  refine ⟨_, hooks05_inbox_eq_of_populated ctx hauth hne, by rw [List.length_map], ?_, ?_⟩
  · rw [hooks05_inbox_eq_of_populated ctx hauth hne]
    simp [Element.count, countList_preview_map]
  · intro k hk
    simp [List.getElem?_map, List.getElem?_eq_getElem hk]

/-- Witness for C4: an authenticated context holding two emails. -/
theorem hooks05_inbox_authenticated_witness :
    ∃ children : List Element,
      Hooks05.Inbox ⟨true, [⟨"a", "Ann", "Hi", "x"⟩, ⟨"b", "Bob", "Yo", "y"⟩]⟩
        = .host "ul" [("className", .str "inbox")] children
      ∧ children.length = 2
      ∧ (Hooks05.Inbox ⟨true, [⟨"a", "Ann", "Hi", "x"⟩, ⟨"b", "Bob", "Yo", "y"⟩]⟩).count
          .Preview = 2
      ∧ ∀ (k : Nat) (hk : k < 2),
          children[k]? = some (.Preview
            (([⟨"a", "Ann", "Hi", "x"⟩, ⟨"b", "Bob", "Yo", "y"⟩] : List Email)[k]).id
            ⟨(([⟨"a", "Ann", "Hi", "x"⟩, ⟨"b", "Bob", "Yo", "y"⟩] : List Email)[k]).id,
              (([⟨"a", "Ann", "Hi", "x"⟩, ⟨"b", "Bob", "Yo", "y"⟩] : List Email)[k]).name,
              (([⟨"a", "Ann", "Hi", "x"⟩, ⟨"b", "Bob", "Yo", "y"⟩] : List Email)[k]).title,
              (([⟨"a", "Ann", "Hi", "x"⟩, ⟨"b", "Bob", "Yo", "y"⟩] : List Email)[k]).body⟩) :=
  (hooks05_inbox_authenticated
    ⟨true, [⟨"a", "Ann", "Hi", "x"⟩, ⟨"b", "Bob", "Yo", "y"⟩]⟩ rfl).1 (by simp)

/-- C5: in the stateless Inbox, a non-empty fixture of size `N` renders as a
list with exactly `N` list items in collection order, and the `k`-th item
shows exactly the `k`-th record's name, title and body. -/
theorem props02_inbox_populated (emails : List Email) (hne : emails ≠ []) :
    ∃ items : List Element,
      Props02.Inbox emails = .host "ul" [] items
      ∧ items.length = emails.length
      ∧ (Props02.Inbox emails).count (.host "li") = emails.length
      ∧ ∀ (k : Nat) (hk : k < emails.length),
          ∃ item : Element, items[k]? = some item
            ∧ item.kind = .host "li"
            ∧ item.texts = [(emails[k]).name, (emails[k]).title, (emails[k]).body] := by
  refine ⟨_, props02_inbox_eq_of_populated emails hne, by rw [List.length_map], ?_, ?_⟩
  · rw [props02_inbox_eq_of_populated emails hne]
    simp only [Element.count, props02_countList_li]
    simp
  · intro k hk
    refine ⟨.host "li" [] [
        .host "h3" [] [.text (emails[k]).name],
        .host "div" [] [
          .host "h3" [] [.text (emails[k]).title],
          .host "p" [] [.text (emails[k]).body]]], ?_, rfl, ?_⟩
    · rw [List.getElem?_map, List.getElem?_eq_getElem hk]
      rfl
    · simp [Element.texts, Element.textsList]

/-- Witness for C5: a fixture of two emails. -/
theorem props02_inbox_populated_witness :
    ∃ items : List Element,
      Props02.Inbox [⟨"a", "Ann", "Hi", "x"⟩, ⟨"b", "Bob", "Yo", "y"⟩] = .host "ul" [] items
      ∧ items.length = 2
      ∧ (Props02.Inbox [⟨"a", "Ann", "Hi", "x"⟩, ⟨"b", "Bob", "Yo", "y"⟩]).count (.host "li") = 2
      ∧ ∀ (k : Nat) (hk : k < 2),
          ∃ item : Element, items[k]? = some item
            ∧ item.kind = .host "li"
            ∧ item.texts
                = [(([⟨"a", "Ann", "Hi", "x"⟩, ⟨"b", "Bob", "Yo", "y"⟩] : List Email)[k]).name,
                   (([⟨"a", "Ann", "Hi", "x"⟩, ⟨"b", "Bob", "Yo", "y"⟩] : List Email)[k]).title,
                   (([⟨"a", "Ann", "Hi", "x"⟩, ⟨"b", "Bob", "Yo", "y"⟩] : List Email)[k]).body] :=
  props02_inbox_populated [⟨"a", "Ann", "Hi", "x"⟩, ⟨"b", "Bob", "Yo", "y"⟩] (by simp)

/-- C6: in the stateless Inbox, an empty fixture renders as the Empty
placeholder, which contains zero list items. -/
theorem props02_inbox_empty :
    Props02.Inbox [] = .Empty ∧ (Props02.Inbox []).count (.host "li") = 0 := by
  refine ⟨rfl, ?_⟩
  decide


/-! ## The guards in front of the populated list -/

/-- C7, as stated, fails for 02-props: that Inbox reads no authentication
flag, so a non-empty fixture renders as the populated list also while the
surrounding state is unauthenticated. -/
theorem renderInbox_props02_populated_unauthenticated :
    ¬ (isPopulatedList
          (renderInbox .props02 ⟨false, [⟨"a", "Ann", "Hi", "x"⟩], none⟩) = true →
        (⟨false, [⟨"a", "Ann", "Hi", "x"⟩], none⟩ : Ambient).isAuthenticated = true
          ∧ (⟨false, [⟨"a", "Ann", "Hi", "x"⟩], none⟩ : Ambient).emails ≠ []) := by
  intro h
  have h' := (h rfl).1
  simp at h'

/-- C7, amended: in the context-based variants (05-hooks, 06-final) the
populated list is produced exactly when authentication is true and the
collection is non-empty, and the authentication guard comes first: an
unauthenticated state renders as Denied also when the collection is empty.
In 02-props there is no authentication guard: the populated list is produced
exactly when the collection is non-empty. -/
theorem renderInbox_populated_iff (v : Variant) (a : Ambient) :
    (isPopulatedList (renderInbox v a) = true
      ↔ (v = .props02 ∨ a.isAuthenticated = true) ∧ a.emails ≠ [])
    ∧ (v ≠ .props02 → a.isAuthenticated = false → renderInbox v a = .Denied) := by
  obtain ⟨isAuth, emails, memo⟩ := a
  cases v with
  | props02 =>
    refine ⟨?_, fun h => absurd rfl h⟩
    cases emails with
    | nil => simp [renderInbox, Props02.Inbox, isPopulatedList]
    | cons e t => simp [renderInbox, Props02.Inbox, isPopulatedList]
  | hooks05 =>
    refine ⟨?_, fun _ h => hooks05_inbox_eq_of_unauthenticated _ h⟩
    cases isAuth with
    | false => simp [renderInbox, Hooks05.Inbox, isPopulatedList]
    | true =>
      cases emails with
      | nil => simp [renderInbox, Hooks05.Inbox, isPopulatedList]
      | cons e t => simp [renderInbox, Hooks05.Inbox, isPopulatedList]
  | final06 =>
    refine ⟨?_, fun _ h => final06_inbox_eq_of_unauthenticated _ _ h⟩
    cases isAuth with
    | false => simp [renderInbox, Final06.Inbox, isPopulatedList]
    | true =>
      cases emails with
      | nil => simp [renderInbox, Final06.Inbox, isPopulatedList]
      | cons e t =>
        cases memo with
        | none =>
          simp only [renderInbox]
          rw [final06_inbox_eq_of_no_memo _ _ rfl (by simp) rfl]
          simp [isPopulatedList]
        | some info =>
          simp only [renderInbox]
          rw [final06_inbox_eq_of_memo _ _ info rfl (by simp) rfl]
          simp [isPopulatedList]

/-! ## Keys of the rendered list -/

/-- C8, as stated, fails: the single record's id is `undo-7` and the removed
record's id is `7`; the identifiers in the collection are unique, yet the
Undo element and the Preview element carry the same key. -/
theorem final06_inbox_undo_key_collision :
    (([⟨"undo-7", "Ann", "Hi", "x"⟩] : List Email).map Email.id).Nodup
    ∧ listChildren? (Final06.Inbox ⟨true⟩
          ⟨[⟨"undo-7", "Ann", "Hi", "x"⟩], some ⟨⟨"7", "Dee", "Fw", "w"⟩, 0⟩⟩)
        = some [.Undo "undo-7", .Preview "undo-7" ⟨"undo-7", "Ann", "Hi", "x"⟩]
    ∧ ¬ (([.Undo "undo-7", .Preview "undo-7" ⟨"undo-7", "Ann", "Hi", "x"⟩] :
          List Element).map Element.key?).Nodup := by
  refine ⟨by simp, rfl, ?_⟩
  simp [Element.key?]

/-- C8, amended: in the split-context Inbox, for an authenticated state with
a non-empty collection whose record identifiers are unique and none of which
equals `undo-` followed by the removed email's id, and for every present
removal memo, the key of the Undo element differs from the key of every
Preview element, and the keys of the rendered list are pairwise distinct. -/
theorem final06_inbox_keys_nodup (auth : Final06.AuthContext) (ec : Final06.EmailContext)
    (info : Final06.RemovedEmailInfo)
    (hauth : auth.isAuthenticated = true) (hne : ec.emails ≠ [])
    (hmemo : ec.removedEmailInfo = some info)
    (huniq : (ec.emails.map Email.id).Nodup)
    (hfresh : ("undo-" ++ info.email.id) ∉ ec.emails.map Email.id) :
    ∃ children : List Element,
      Final06.Inbox auth ec = .host "ul" [("className", .str "inbox")] children
      ∧ (∀ c ∈ children, c.kind = .Preview → c.key? ≠ some ("undo-" ++ info.email.id))
      ∧ (children.map Element.key?).Nodup := by
  refine ⟨_, final06_inbox_eq_of_memo auth ec info hauth hne hmemo, ?_, ?_⟩
  · intro c hc hkind
    rw [List.mem_append, List.mem_cons] at hc
    have hprev : c ∈ ec.emails.map fun email => Element.Preview email.id email := by
      rcases hc with h | h | h
      · exact List.mem_of_mem_take h
      · rw [h] at hkind; cases hkind
      · exact List.mem_of_mem_drop h
    obtain ⟨e, he, rfl⟩ := List.mem_map.mp hprev
    intro hkey
    apply hfresh
    have : e.id = "undo-" ++ info.email.id := by simpa [Element.key?] using hkey
    rw [← this]
    exact List.mem_map_of_mem Email.id he
  · have hkeys : (ec.emails.map fun email => Element.Preview email.id email).map Element.key?
        = (ec.emails.map Email.id).map some := by
      simp [List.map_map, Function.comp_def, Element.key?]
    rw [List.map_append, List.map_cons, List.nodup_middle, List.nodup_cons,
      ← List.map_append, List.take_append_drop, hkeys]
    refine ⟨?_, huniq.map (Option.some_injective _)⟩
    simpa [Element.key?] using hfresh

/-- Witness for the amended C8: two emails with ids `a` and `b`, removed
id `d`. -/
theorem final06_inbox_keys_nodup_witness :
    ∃ children : List Element,
      Final06.Inbox ⟨true⟩
          ⟨[⟨"a", "Ann", "Hi", "x"⟩, ⟨"b", "Bob", "Yo", "y"⟩],
            some ⟨⟨"d", "Dee", "Fw", "w"⟩, 1⟩⟩
        = .host "ul" [("className", .str "inbox")] children
      ∧ (∀ c ∈ children, c.kind = .Preview → c.key? ≠ some ("undo-" ++ "d"))
      ∧ (children.map Element.key?).Nodup :=
  final06_inbox_keys_nodup ⟨true⟩
    ⟨[⟨"a", "Ann", "Hi", "x"⟩, ⟨"b", "Bob", "Yo", "y"⟩],
      some ⟨⟨"d", "Dee", "Fw", "w"⟩, 1⟩⟩
    ⟨⟨"d", "Dee", "Fw", "w"⟩, 1⟩ rfl (by simp) rfl (by decide) (by decide)

/-! ## Chapter 05-hooks: removing an email through its Preview -/

/-- C9: in the ambient-context variant, the Inbox child for the `k`-th
record is a Preview of that record, and the only click handler of the
rendered Preview calls `removeEmail` with exactly that record's id.  With
`removeEmail` removing the record with the matching identifier, for an
authenticated context whose collection has `N ≥ 2` records with unique ids,
invoking that handler yields a next Inbox render that is a list of exactly
`N - 1` Preview items, the others in their original order, with no record
carrying the removed id. -/
theorem hooks05_inbox_after_remove (ctx : Hooks05.AppContext) (k : Nat)
    (hauth : ctx.isAuthenticated = true) (hlen : 2 ≤ ctx.emails.length)
    (huniq : (ctx.emails.map Email.id).Nodup) (hk : k < ctx.emails.length) :
    listChildren? (Hooks05.Inbox ctx)
        = some (ctx.emails.map fun email => Element.Preview email.id email)
    ∧ (Hooks05.Preview ctx.emails[k]).onClicks = [Handler.removeEmail (ctx.emails[k]).id]
    ∧ Hooks05.Inbox (Hooks05.invoke (.removeEmail (ctx.emails[k]).id) ctx)
        = .host "ul" [("className", .str "inbox")]
            ((ctx.emails.eraseIdx k).map fun email => Element.Preview email.id email)
    ∧ (Hooks05.Inbox (Hooks05.invoke (.removeEmail (ctx.emails[k]).id) ctx)).count .Preview
        = ctx.emails.length - 1
    ∧ ((ctx.emails.eraseIdx k).map fun email => Element.Preview email.id email).length
        = ctx.emails.length - 1
    ∧ ∀ e ∈ ctx.emails.eraseIdx k, e.id ≠ (ctx.emails[k]).id := by
  have hne : ctx.emails ≠ [] := by
    intro h; rw [h] at hlen; simp at hlen
  have hrem : (Hooks05.invoke (.removeEmail (ctx.emails[k]).id) ctx).emails
      = ctx.emails.eraseIdx k := by
    simp only [Hooks05.invoke, Hooks05.removeEmail]
    exact filter_id_ne_eq_eraseIdx ctx.emails k hk huniq
  have hauth' : (Hooks05.invoke (.removeEmail (ctx.emails[k]).id) ctx).isAuthenticated
      = true := by
    simpa [Hooks05.invoke, Hooks05.removeEmail] using hauth
  have hlen' : (ctx.emails.eraseIdx k).length = ctx.emails.length - 1 := by
    rw [List.length_eraseIdx, if_pos hk]
  have hne' : (Hooks05.invoke (.removeEmail (ctx.emails[k]).id) ctx).emails ≠ [] := by
    rw [hrem]
    intro h
    rw [h] at hlen'
    simp at hlen'
    omega
  have hrender := hooks05_inbox_eq_of_populated _ hauth' hne'
  rw [hrem] at hrender
  refine ⟨?_, ?_, hrender, ?_, ?_, ?_⟩
  · rw [hooks05_inbox_eq_of_populated ctx hauth hne]
    rfl
  · simp [Hooks05.Preview, Element.onClicks, Element.onClicksList, Element.onClickOf]
  · rw [hrender]
    simp [Element.count, countList_preview_map, hlen']
  · rw [List.length_map, hlen']
  · intro e he
    rw [← filter_id_ne_eq_eraseIdx ctx.emails k hk huniq, List.mem_filter] at he
    simpa using he.2

/-- Witness for C9: three records, removing the second leaves the first and
the third. -/
theorem hooks05_inbox_after_remove_witness :
    Hooks05.Inbox (Hooks05.invoke (.removeEmail "b")
        ⟨true, [⟨"a", "Ann", "Hi", "x"⟩, ⟨"b", "Bob", "Yo", "y"⟩, ⟨"c", "Cy", "Re", "z"⟩]⟩)
      = .host "ul" [("className", .str "inbox")]
          [.Preview "a" ⟨"a", "Ann", "Hi", "x"⟩, .Preview "c" ⟨"c", "Cy", "Re", "z"⟩] :=
  (hooks05_inbox_after_remove
    ⟨true, [⟨"a", "Ann", "Hi", "x"⟩, ⟨"b", "Bob", "Yo", "y"⟩, ⟨"c", "Cy", "Re", "z"⟩]⟩ 1
    rfl (by decide) (by decide) (by decide)).2.2.1


end ReactTraining
